import Mathlib

/-
Formal model of the CatSim variability evaluation engine
(python/lsst/sims/catUtils/mixins/VariabilityMixin.py).

Real numbers computed by the Python code with numpy floating point are
modelled exactly over the rationals; external numerical routines
(the pseudo-random normal generator, scipy interpolants, math.sqrt,
numpy.exp) are modelled as explicit function parameters, so every
theorem quantifies over them.  A numpy random generator state is
modelled by the number of draws already consumed from an abstract
draw stream: numpy.random.RandomState(seed) is deterministic, and the
code deep-copies generator state both when it caches it and when it
resumes from it, so a cached state is exactly "the stream of this
seed, advanced by the number of draws made so far".
-/

namespace VariabilityMixin

/-! ### AGN damped-random-walk model (applyAgn, lines 831-945) -/

/-- One entry of the module-level dict _AGN_LC_CACHE: the last simulated
MJD, the generator state (number of normal draws consumed so far), and
the running per-band displacement dx. -/
structure AgnEntry where
  mjd : ℚ
  rngPos : ℕ
  dx : Fin 6 → ℚ

/-- The module-level dict _AGN_LC_CACHE, keyed by the AGN identity string. -/
abbrev AgnCache := List (String × AgnEntry)

/-- Models reset_agn_lc_cache (lines 97-104): the cache becomes an empty dict. -/
def reset_agn_lc_cache : AgnCache := []

/-- Replace the value stored under key `k` (Python dict item assignment for
an existing key). -/
def assocSet {β : Type} (l : List (String × β)) (k : String) (v : β) :
    List (String × β) :=
  l.map (fun p => if p.1 = k then (k, v) else p)

/-- Models the cache maintenance at the end of each applyAgn loop body
(lines 932-943): if the cache holds more than one million entries it is
reset to empty, then the entry for `agn_id` is created or overwritten. -/
def agnCacheUpdate (cache : AgnCache) (agn_id : String) (e : AgnEntry) : AgnCache :=
  let cache2 := if 1000000 < cache.length then reset_agn_lc_cache else cache
  match List.lookup agn_id cache2 with
  | none => cache2 ++ [(agn_id, e)]
  | some _ => assocSet cache2 agn_id e

/-- The inner simulation loop of applyAgn for one band (lines 917-924):
starting from displacement `dx0` with the generator already advanced to
draw `pos`, the running displacement dx2 after `n` steps of
  dx2 = -dx1*dt + sfint*es[i] + dx1,   es[i] = (i-th normal draw)*sqrt(dt),
where at each step dx1 is the previous dx2.  `dtn` is the normalized
step dt/tau and `sqrt_dt` models math.sqrt(dt/tau) as computed by the
float library.  After n+1 steps the loop leaves dx1 = the displacement
after n steps; after zero steps the loop body never runs and dx1 stays
unbound — agnSimulate models the resulting UnboundLocalError at the
line that reads dx1. -/
def agnWalk (dtn sfk sqrt_dt : ℚ) (stream : ℕ → ℚ) (pos : ℕ) (dx0 : ℚ) : ℕ → ℚ
  | 0 => dx0
  | n + 1 =>
    let d := agnWalk dtn sfk sqrt_dt stream pos dx0 n;
    -d * dtn + sfk * (stream (pos + n) * sqrt_dt) + d

/-- The simulation core of the applyAgn loop body (lines 899-930 together
with the construction of the new cache entry, lines 941-943), given the
resolved starting point: start date, generator position and running
displacement.  When nbins = ceil(endepoch/dt) is zero — the requested
time equals the start date — the per-band loop at lines 919-923 never
assigns dx1, and line 926 raises UnboundLocalError on the first band
before any output is produced or any cache entry written; otherwise
dx1 is the walk after nbins-1 steps and dx2 the walk after nbins steps,
and the result is the two-point interpolation at the requested time
together with the cache entry the code stores back. -/
def agnSimulate (tau : ℚ) (sfint : Fin 6 → ℚ) (stream : ℕ → ℚ) (sqrt_dt : ℚ)
    (start_date : ℚ) (pos0 : ℕ) (dx_0 : Fin 6 → ℚ) (expmjd_val : ℚ) :
    Except String ((Fin 6 → ℚ) × AgnEntry) :=
  let endepoch := expmjd_val - start_date
  let dt := tau / 100
  match (⌈endepoch / dt⌉).toNat with
  | 0 => .error "UnboundLocalError: local variable dx1 referenced before assignment"
  | m + 1 =>
    let nbins : ℕ := m + 1
    let x1 : ℚ := ((nbins : ℚ) - 1) * dt
    let x2 : ℚ := (nbins : ℚ) * dt
    let dtn := dt / tau
    let dMag : Fin 6 → ℚ := fun k =>
      let dx1 := agnWalk dtn (sfint k) sqrt_dt stream pos0 (dx_0 k) m
      let dx2 := agnWalk dtn (sfint k) sqrt_dt stream pos0 (dx_0 k) nbins
      (endepoch * (dx1 - dx2) + dx2 * x1 - dx1 * x2) / (x1 - x2)
    .ok (dMag,
      { mjd := start_date + x2, rngPos := pos0 + nbins,
        dx := fun k => agnWalk dtn (sfint k) sqrt_dt stream pos0 (dx_0 k) nbins })

/-- The body of the applyAgn double loop for one object at one requested
time (lines 856-943).  `agn_id` stands for the identity string the code
formats from the seed and the seven physical parameters (the same
physical parameters always yield the same string); `stream` is the
abstract normal-draw stream of this seed.  Returns the per-band
magnitude offsets together with the updated cache; the RuntimeError is
raised when the requested time precedes the simulation start, and the
UnboundLocalError of agnSimulate propagates when the requested time
equals it (in both cases the cache is left untouched, as the exception
aborts the call before lines 932-943). -/
def applyAgnOne (agn_id : String) (tau toff : ℚ) (sfint : Fin 6 → ℚ)
    (stream : ℕ → ℚ) (sqrt_dt : ℚ) (expmjd_val : ℚ) (cache : AgnCache) :
    Except String ((Fin 6 → ℚ) × AgnCache) :=
  let resume : Option AgnEntry :=
    match List.lookup agn_id cache with
    | some entry => if entry.mjd < expmjd_val then some entry else none
    | none => none
  let start_date : ℚ := match resume with | some entry => entry.mjd | none => toff
  let pos0 : ℕ := match resume with | some entry => entry.rngPos | none => 0
  let dx_0 : Fin 6 → ℚ := match resume with | some entry => entry.dx | none => fun _ => 0
  if expmjd_val - start_date < 0 then
    .error "Time offset greater than minimum epoch.  Not applying variability."
  else
    match agnSimulate tau sfint stream sqrt_dt start_date pos0 dx_0 expmjd_val with
    | .error e => .error e
    | .ok r => .ok (r.1, agnCacheUpdate cache agn_id r.2)

/-- A run of applyAgn evaluations over distinct process identities: the
cache state after evaluations of the processes key 0, key 1, ..., key n
(each evaluation ends in the cache maintenance step agnCacheUpdate;
the stored entry contents are irrelevant to the cache-bound behaviour,
so a fixed entry `e` is stored). -/
def agnInsertRun (key : ℕ → String) (e : AgnEntry) : ℕ → AgnCache
  | 0 => agnCacheUpdate [] (key 0) e
  | n + 1 => agnCacheUpdate (agnInsertRun key e n) (key (n + 1)) e

/-- An injective family of identity strings: n is mapped to the string of
n repetitions of the letter a (stands for n distinct AGN identity
strings; the identity string in the code is injective in the physical
parameters by construction). -/
def natKey (n : ℕ) : String := String.mk (List.replicate n 'a')

/-- A concrete throwaway cache entry. -/
def agnEntry0 : AgnEntry := { mjd := 0, rngPos := 0, dx := fun _ => 0 }

/-! ### Parameter values and the periodic light-curve sub-evaluator
(applyStdPeriodic, lines 286-383) -/

/-- A value decoded from the json varParamStr parameter dict. -/
inductive PVal where
  | num (q : ℚ)
  | str (s : String)
deriving DecidableEq

/-- The params dict built by applyVariability: parameter name to the list
of per-object values; objects that do not use the model hold the null
sentinel None in each list. -/
abbrev ParamTable := List (String × List (Option PVal))

/-- Read params[key][ix] expecting a string (Python raises KeyError on a
missing key and TypeError when the value is not usable as a file name;
ix is always in range in the code, since valid_dexes comes from
numpy.where over the same-length arrays). -/
def getStrParam (params : ParamTable) (key : String) (ix : ℕ) : Except String String :=
  match List.lookup key params with
  | none => .error ("KeyError: " ++ key)
  | some slots =>
    match slots.getD ix none with
    | some (.str s) => .ok s
    | _ => .error ("TypeError: " ++ key)

/-- Read params[key][ix] expecting a number. -/
def getNumParam (params : ParamTable) (key : String) (ix : ℕ) : Except String ℚ :=
  match List.lookup key params with
  | none => .error ("KeyError: " ++ key)
  | some slots =>
    match slots.getD ix none with
    | some (.num q) => .ok q
    | _ => .error ("TypeError: " ++ key)

/-- The table numpy.loadtxt reads from a light-curve file: row 0 is the
time (or phase) grid, rows 1-6 the per-band brightness columns. -/
structure LightCurve where
  time : List ℚ
  flux : Fin 6 → List ℚ

/-- An interpolant factory (scipy InterpolatedUnivariateSpline or
interp1d): from a grid of abscissae and ordinates, a function of the
evaluation point.  Modelled as an abstract parameter. -/
abbrev Interp := List ℚ → List ℚ → (ℚ → ℚ)

/-- One entry of self.variabilityLcCache, keyed by light-curve file name:
the six per-band interpolants and the period. -/
structure LcEntry where
  splines : Fin 6 → ℚ → ℚ
  period : ℚ

/-- The mutable state of a Variability instance that applyStdPeriodic
reads and writes. -/
structure VarState where
  variabilityInitialized : Bool
  variabilityCache : Bool
  variabilityLcCache : List (String × LcEntry)

/-- Models initializeVariability (lines 139-159): marks the instance
initialized, empties the light-curve cache and records the caching flag.
(The data-directory environment lookup is outside the model.) -/
def initializeVariability (doCache : Bool) (_s : VarState) : VarState :=
  { variabilityInitialized := true
    variabilityCache := doCache
    variabilityLcCache := [] }

/-- Models lines 184-185 of applyVariability: on first dispatch the
instance is initialized with doCache=True. -/
def applyVariabilityInitState (s : VarState) : VarState :=
  if s.variabilityInitialized = false then initializeVariability true s else s

/-- The interpolation phase of applyStdPeriodic (line 375):
phase = epoch/period - epoch//period, with Python floor division. -/
def stdPeriodicPhase (epoch period : ℚ) : ℚ :=
  epoch / period - ⌊epoch / period⌋

/-- The per-object cache-or-load step of applyStdPeriodic
(lines 332-373): extract the file name, epoch offset and optional
explicit period for object ix; on a cache hit return the cached
interpolants and period (the explicit period is read but not used); on
a miss load the file, determine the period (explicit, or the time
grid's span plus one sample spacing), rescale the time axis by the
period when inDays, build one interpolant per band with interpFactory
(or interp1d when no factory is configured) and, when caching is
enabled, store the entry under the file name. -/
def stdPeriodicObjData (interp1d : Interp) (files : String → LightCurve)
    (params : ParamTable) (keymapFilename keymapT0 : String) (inDays : Bool)
    (interpFactory : Option Interp) (ix : ℕ) (s : VarState) :
    Except String ((Fin 6 → ℚ → ℚ) × ℚ × ℚ × VarState) :=
  match getStrParam params keymapFilename ix with
  | .error e => .error e
  | .ok filename =>
    match getNumParam params keymapT0 ix with
    | .error e => .error e
    | .ok toff =>
      let inPeriod : Option PVal :=
        match List.lookup "period" params with
        | some slots => slots.getD ix none
        | none => none
      match List.lookup filename s.variabilityLcCache with
      | some entry => .ok (entry.splines, entry.period, toff, s)
      | none =>
        let lc := files filename
        let periodE : Except String ℚ :=
          match inPeriod with
          | none =>
            match lc.time with
            | tA :: tB :: _ => .ok (lc.time.getLastD 0 + (tB - tA))
            | _ => .error "IndexError: light curve time grid too short"
          | some (.num q) => .ok q
          | some (.str _) => .error "TypeError: period"
        match periodE with
        | .error e => .error e
        | .ok period =>
          let timeAxis := if inDays then lc.time.map (fun x => x / period) else lc.time
          let factory := interpFactory.getD interp1d
          let splines : Fin 6 → ℚ → ℚ := fun b => factory timeAxis (lc.flux b)
          let s2 :=
            if s.variabilityCache then
              { s with variabilityLcCache :=
                  (filename, { splines := splines, period := period }) :: s.variabilityLcCache }
            else s
          .ok (splines, period, toff, s2)

/-- The magnitude-offset array of applyStdPeriodic for a scalar time,
indexed by band then object.  numpy arrays written band-row by band-row
are modelled as total functions; indices outside the allocated
(6, N) block are never written nor read by the code. -/
abbrev Mag2 := ℕ → ℕ → ℚ

/-- The magnitude-offset array for a vector of times: band, object, time. -/
abbrev Mag3 := ℕ → ℕ → ℕ → ℚ

/-- magoff[b][ix] = v. -/
def setMag2 (m : Mag2) (b ix : ℕ) (v : ℚ) : Mag2 :=
  fun b2 i2 => if b2 = b ∧ i2 = ix then v else m b2 i2

/-- magoff[b][ix] = row (assignment of a whole time row). -/
def setMag3 (m : Mag3) (b ix : ℕ) (row : ℕ → ℚ) : Mag3 :=
  fun b2 i2 k => if b2 = b ∧ i2 = ix then row k else m b2 i2 k

/-- The six band-row writes of lines 376-381 for one object, scalar time. -/
def writeObjS (m : Mag2) (ix : ℕ) (g : Fin 6 → ℚ) : Mag2 :=
  setMag2 (setMag2 (setMag2 (setMag2 (setMag2 (setMag2 m 0 ix (g 0)) 1 ix (g 1))
    2 ix (g 2)) 3 ix (g 3)) 4 ix (g 4)) 5 ix (g 5)

/-- The six band-row writes for one object, vector time. -/
def writeObjV (m : Mag3) (ix : ℕ) (g : Fin 6 → ℕ → ℚ) : Mag3 :=
  setMag3 (setMag3 (setMag3 (setMag3 (setMag3 (setMag3 m 0 ix (g 0)) 1 ix (g 1))
    2 ix (g 2)) 3 ix (g 3)) 4 ix (g 4)) 5 ix (g 5)

/-- The object loop of applyStdPeriodic for a scalar expmjd. -/
def stdPeriodicLoopS (interp1d : Interp) (files : String → LightCurve)
    (params : ParamTable) (keymapFilename keymapT0 : String) (inDays : Bool)
    (interpFactory : Option Interp) (t : ℚ) :
    List ℕ → Mag2 → VarState → Except String (Mag2 × VarState)
  | [], m, s => .ok (m, s)
  | ix :: rest, m, s =>
    match stdPeriodicObjData interp1d files params keymapFilename keymapT0 inDays
        interpFactory ix s with
    | .error e => .error e
    | .ok (splines, period, toff, s2) =>
      stdPeriodicLoopS interp1d files params keymapFilename keymapT0 inDays interpFactory t
        rest
        (writeObjS m ix (fun b => splines b (stdPeriodicPhase (t - toff) period)))
        s2

/-- The object loop of applyStdPeriodic for a vector expmjd: the phase
array is the image of the time vector, and each interpolant is applied
elementwise, filling the whole time row of the object. -/
def stdPeriodicLoopV (interp1d : Interp) (files : String → LightCurve)
    (params : ParamTable) (keymapFilename keymapT0 : String) (inDays : Bool)
    (interpFactory : Option Interp) (ts : List ℚ) :
    List ℕ → Mag3 → VarState → Except String (Mag3 × VarState)
  | [], m, s => .ok (m, s)
  | ix :: rest, m, s =>
    match stdPeriodicObjData interp1d files params keymapFilename keymapT0 inDays
        interpFactory ix s with
    | .error e => .error e
    | .ok (splines, period, toff, s2) =>
      stdPeriodicLoopV interp1d files params keymapFilename keymapT0 inDays interpFactory ts
        rest
        (writeObjV m ix
          (fun b k => splines b (stdPeriodicPhase (ts.getD k 0 - toff) period)))
        s2

/-- applyStdPeriodic for a scalar expmjd (the isinstance Number branch):
the offset array starts as zeros and the loop fills the valid objects. -/
def applyStdPeriodicS (interp1d : Interp) (files : String → LightCurve)
    (valid_dexes : List ℕ) (params : ParamTable) (keymapFilename keymapT0 : String)
    (inDays : Bool) (interpFactory : Option Interp) (t : ℚ) (s : VarState) :
    Except String (Mag2 × VarState) :=
  stdPeriodicLoopS interp1d files params keymapFilename keymapT0 inDays interpFactory t
    valid_dexes (fun _ _ => 0) s

/-- applyStdPeriodic for a vector expmjd. -/
def applyStdPeriodicV (interp1d : Interp) (files : String → LightCurve)
    (valid_dexes : List ℕ) (params : ParamTable) (keymapFilename keymapT0 : String)
    (inDays : Bool) (interpFactory : Option Interp) (ts : List ℚ) (s : VarState) :
    Except String (Mag3 × VarState) :=
  stdPeriodicLoopV interp1d files params keymapFilename keymapT0 inDays interpFactory ts
    valid_dexes (fun _ _ _ => 0) s

/-- The parameter table of an applyRRly batch of two objects sharing one
light-curve file f with explicit periods p0 and p1 (keymap filename ->
filename, t0 -> tStartMjd, as in applyRRly). -/
def rrTwoObjParams (f : String) (t01 t02 p0 p1 : ℚ) : ParamTable :=
  [("filename", [some (.str f), some (.str f)]),
   ("tStartMjd", [some (.num t01), some (.num t02)]),
   ("period", [some (.num p0), some (.num p1)])]

/-! ### Cataclysmic-variable burst model (applyAmcvn, lines 475-543):
the burst-pulse train of lines 521-535 -/

/-- numpy.linspace: n evenly spaced samples from a to b, both endpoints
included. -/
def linspaceQ (a b : ℚ) (n : ℕ) : List ℚ :=
  match n with
  | 0 => []
  | 1 => [a]
  | _ => (List.range n).map (fun j => a + (j : ℚ) * (b - a) / ((n : ℚ) - 1))

/-- The contribution of the burst pulse at time o to the running adds of
lines 527-528:
tmp = exp(-1*(epoch - o)/burst_scale)/exp(-1); adds -= amp_burst*tmp*(tmp < 1.0).
The numpy boolean factor (tmp < 1.0) multiplies as 1 where true and 0
where false.  expF abstracts the floating-point numpy.exp. -/
def amcvnPulseContribution (expF : ℚ → ℚ) (amp_burst burst_scale epoch o : ℚ) : ℚ :=
  let tmp := expF (-1 * (epoch - o) / burst_scale) / expF (-1)
  let contribution := -(amp_burst * tmp * (if tmp < 1 then 1 else 0))
  contribution

/-- The whole burst train of one bursting object (lines 523-528): pulses
start at t0 + burst_freq and run to t0 + maxyears*365.25 with
numpy.ceil(maxyears*365.25/burst_freq) samples, maxyears = 10. -/
def amcvnBurstAdds (expF : ℚ → ℚ) (t0 burst_freq burst_scale amp_burst epoch : ℚ) : ℚ :=
  (linspaceQ (t0 + burst_freq) (t0 + 36525/10)
      ((⌈(36525/10) / burst_freq⌉).toNat)).foldl
    (fun adds o => adds + amcvnPulseContribution expF amp_burst burst_scale epoch o) 0

/-- The (2,2) Pade approximant of the exponential: an exact-rational
stand-in for the floating-point numpy.exp at the two points a concrete
evaluation needs.  Only the position of tmp relative to the threshold 1
matters to the clipping direction, and this surrogate agrees with exp
there (it is accurate to within 0.004 on [-2, 0]). -/
def expPade (x : ℚ) : ℚ := (12 + 6 * x + x * x) / (12 - 6 * x + x * x)

/-! ### Parameter demultiplexer and dispatch orchestrator
(applyVariability, lines 163-283) -/

/-- A value of the json dict decoded from a varParamStr entry. -/
inductive BVal where
  | str (s : String)
  | num (q : ℚ)
  | dict (d : List (String × PVal))
deriving DecidableEq

/-- One varParamStr column entry after json decoding.  The code treats a
database None and the literal string None alike (str(varCmd) != 'None'),
both mapped here to null; any other entry is the decoded json dict. -/
inductive Blob where
  | null
  | cmd (d : List (String × BVal))
deriving DecidableEq

/-- Lines 224-246: pick the method-name key (varMethodName, else m) and
the parameter-dict key (pars, else p) and extract both; a null blob
yields the synthetic no-model entry (None, empty params). -/
def blobFields : Blob → Except String (String × List (String × PVal))
  | .null => .ok ("None", [])
  | .cmd d =>
    let meth_key := if (List.lookup "varMethodName" d).isSome then "varMethodName" else "m"
    let par_key := if (List.lookup "pars" d).isSome then "pars" else "p"
    match List.lookup meth_key d with
    | some (.str name) =>
      (match List.lookup par_key d with
       | some (.dict pars) => .ok (name, pars)
       | some _ => .error "TypeError: pars"
       | none => .error ("KeyError: " ++ par_key))
    | some _ => .error "TypeError: method name"
    | none => .error ("KeyError: " ++ meth_key)

/-- The state the demultiplexer loop of lines 212-258 builds: the
per-object model-name list and the params dict of dicts. -/
structure DemuxState where
  method_name_arr : List String
  params : List (String × ParamTable)
deriving DecidableEq

/-- params[method][p_name][ix] = value (line 258): a Python KeyError is
raised when p_name was not initialized for this method, which happens
exactly when the first-seen object of the method lacked p_name. -/
def setSlot (pl : ParamTable) (p_name : String) (ix : ℕ) (v : PVal) :
    Except String ParamTable :=
  match List.lookup p_name pl with
  | none => .error ("KeyError: " ++ p_name)
  | some slots => .ok (assocSet pl p_name (slots.set ix (some v)))

/-- The write loop of lines 257-258 over one object's parameter dict. -/
def writeParams : List (String × PVal) → ParamTable → ℕ → Except String ParamTable
  | [], pl, _ => .ok pl
  | (p, v) :: rest, pl, ix =>
    match setSlot pl p ix v with
    | .error e => .error e
    | .ok pl2 => writeParams rest pl2 ix

/-- One iteration of the demultiplexer loop (lines 224-258) for object ix
of a batch of nTotal objects: decode the blob; if the model name is new,
initialize params[name] with a None slot list per parameter name OF THIS
OBJECT; append the name; write this object's values. -/
def demuxStep (nTotal ix : ℕ) (blob : Blob) (st : DemuxState) : Except String DemuxState :=
  match blobFields blob with
  | .error e => .error e
  | .ok (name, pars) =>
    let params1 :=
      if st.method_name_arr.contains name then st.params
      else
        (match List.lookup name st.params with
         | some _ => assocSet st.params name
             (pars.map (fun pv => (pv.1, List.replicate nTotal (none : Option PVal))))
         | none => st.params ++
             [(name, pars.map (fun pv => (pv.1, List.replicate nTotal (none : Option PVal))))])
    let arr1 := st.method_name_arr ++ [name]
    match List.lookup name params1 with
    | none => .error ("KeyError: " ++ name)
    | some pl =>
      match writeParams pars pl ix with
      | .error e => .error e
      | .ok pl2 => .ok { method_name_arr := arr1, params := assocSet params1 name pl2 }

/-- The demultiplexer loop over the batch. -/
def demuxLoop (nTotal : ℕ) : List Blob → ℕ → DemuxState → Except String DemuxState
  | [], _, st => .ok st
  | b :: rest, ix, st =>
    match demuxStep nTotal ix b st with
    | .error e => .error e
    | .ok st2 => demuxLoop nTotal rest (ix + 1) st2

/-- The parameter demultiplexer of applyVariability (lines 212-263). -/
def demux (blobs : List Blob) : Except String DemuxState :=
  demuxLoop blobs.length blobs 0 { method_name_arr := [], params := [] }

/-- The time argument of applyVariability: a scalar MJD or a vector. -/
inductive ExpMjd where
  | scalar (t : ℚ)
  | vector (ts : List ℚ)
deriving DecidableEq

/-- A 2-D (band, object) or 3-D (band, object, time) numpy array of
magnitude offsets, as nested lists. -/
inductive NArr where
  | mk2 (a : List (List ℚ))
  | mk3 (a : List (List (List ℚ)))
deriving DecidableEq

def zeros1 (n : ℕ) : List ℚ := List.replicate n 0

def zeros2 (r c : ℕ) : List (List ℚ) := List.replicate r (zeros1 c)

def zeros3 (r c d : ℕ) : List (List (List ℚ)) := List.replicate r (zeros2 c d)

/-- numpy.zeros((6, N)) for scalar time, numpy.zeros((6, N, T)) for
vector time (lines 188-195). -/
def zerosFor (expmjd : ExpMjd) (n : ℕ) : NArr :=
  match expmjd with
  | .scalar _ => .mk2 (zeros2 6 n)
  | .vector ts => .mk3 (zeros3 6 n ts.length)

/-- Elementwise in-place addition of a row; numpy's in-place += preserves
the target's shape, and every evaluator returns an array of exactly the
target's shape (mismatched shapes, reachable only through the empty
(6,0) guard arrays, fail to broadcast in numpy too). -/
def addRow : List ℚ → List ℚ → Except String (List ℚ)
  | [], [] => .ok []
  | x :: xs, y :: ys =>
    (match addRow xs ys with
     | .error e => .error e
     | .ok r => .ok ((x + y) :: r))
  | _, _ => .error "ValueError: operands could not be broadcast together"

def addMat : List (List ℚ) → List (List ℚ) → Except String (List (List ℚ))
  | [], [] => .ok []
  | x :: xs, y :: ys =>
    (match addRow x y with
     | .error e => .error e
     | .ok r =>
       match addMat xs ys with
       | .error e => .error e
       | .ok rest => .ok (r :: rest))
  | _, _ => .error "ValueError: operands could not be broadcast together"

def addCube : List (List (List ℚ)) → List (List (List ℚ)) →
    Except String (List (List (List ℚ)))
  | [], [] => .ok []
  | x :: xs, y :: ys =>
    (match addMat x y with
     | .error e => .error e
     | .ok r =>
       match addCube xs ys with
       | .error e => .error e
       | .ok rest => .ok (r :: rest))
  | _, _ => .error "ValueError: operands could not be broadcast together"

/-- deltaMag += evaluator result (line 279). -/
def addN : NArr → NArr → Except String NArr
  | .mk2 a, .mk2 b => (addMat a b).map .mk2
  | .mk3 a, .mk3 b => (addCube a b).map .mk3
  | _, _ => .error "ValueError: operands could not be broadcast together"

/-- numpy.where(numpy.char.equal(name, method_name_arr))[0]: the object
positions whose model tag equals name. -/
def validDexes (name : String) (names : List String) : List ℕ :=
  (List.range names.length).filter (fun i => names.getD i "" = name)

/-- Insertion into an ascending list of strings (for numpy.unique, which
returns the distinct values sorted). -/
def insortStr (x : String) : List String → List String
  | [] => [x]
  | y :: ys => if x < y then x :: y :: ys else y :: insortStr x ys

/-- The distinct values in first-occurrence order. -/
def dedupNames (l : List String) : List String :=
  l.foldl (fun acc x => if acc.contains x then acc else acc ++ [x]) []

/-- numpy.unique: the distinct values, sorted ascending. -/
def npUnique (l : List String) : List String :=
  (dedupNames l).foldr insortStr []

/-- A registered variability model: from valid indices, a parameter
table and the time argument to a magnitude-offset array (an exception
models a raised Python error). -/
abbrev Evaluator := List ℕ → ParamTable → ExpMjd → Except String NArr

/-- Lines 202-204: with an empty batch, call every registered model on
empty input (the dependency-discovery dry run) and discard the results. -/
def runRegistryEmpty : List (String × Evaluator) → Except String Unit
  | [] => .ok ()
  | (_, f) :: rest =>
    match f [] [] (.scalar 0) with
    | .error e => .error e
    | .ok _ => runRegistryEmpty rest

/-- The dispatch loop of lines 268-281 over the distinct model names:
skip the null sentinel, look the model up in the registry (RuntimeError
when absent), evaluate it on its valid indices and add the result into
the accumulator. -/
def dispatchLoop (registry : List (String × Evaluator)) (names : List String)
    (params : List (String × ParamTable)) (expmjd : ExpMjd) :
    List String → NArr → Except String NArr
  | [], acc => .ok acc
  | name :: rest, acc =>
    if name = "None" then dispatchLoop registry names params expmjd rest acc
    else
      match List.lookup name registry with
      | none => .error ("RuntimeError: Your InstanceCatalog does not contain a "
          ++ "variability method corresponding to " ++ name)
      | some f =>
        match f (validDexes name names) ((List.lookup name params).getD []) expmjd with
        | .error e => .error e
        | .ok res =>
          match addN acc res with
          | .error e => .error e
          | .ok acc2 => dispatchLoop registry names params expmjd rest acc2

/-- The dispatch orchestrator applyVariability (lines 163-283) given the
already-built method registry and an explicit time argument (the code
defaults a missing time to the catalog's bound observation epoch, a
scalar).  State initialization (lines 184-185) is modelled separately by
applyVariabilityInitState. -/
def applyVariabilityDeltaMag (registry : List (String × Evaluator)) (blobs : List Blob)
    (expmjd : ExpMjd) : Except String NArr :=
  let init := zerosFor expmjd blobs.length
  match (if blobs.length = 0 then runRegistryEmpty registry else .ok ()) with
  | .error e => .error e
  | .ok _ =>
    match demux blobs with
    | .error e => .error e
    | .ok st =>
      dispatchLoop registry st.method_name_arr st.params expmjd
        (npUnique st.method_name_arr) init

/-- a is an r-by-c table. -/
def shape2 (a : List (List ℚ)) (r c : ℕ) : Prop :=
  a.length = r ∧ ∀ row ∈ a, row.length = c

/-- a is an r-by-c-by-d table. -/
def shape3 (a : List (List (List ℚ))) (r c d : ℕ) : Prop :=
  a.length = r ∧ ∀ m ∈ a, m.length = c ∧ ∀ row ∈ m, row.length = d

/-- The output-shape contract: (6, n) for scalar time, (6, n, T) for a
vector of T times. -/
def hasShapeFor (d : NArr) (expmjd : ExpMjd) (n : ℕ) : Prop :=
  match expmjd, d with
  | .scalar _, .mk2 a => shape2 a 6 n
  | .vector ts, .mk3 a => shape3 a 6 n ts.length
  | _, _ => False

/-! ### Lemmas about the AGN walk and simulation core -/

theorem agnWalk_split (dtn sfk sqrt_dt : ℚ) (stream : ℕ → ℚ) (pos : ℕ) (dx0 : ℚ)
    (n1 : ℕ) :
    ∀ k : ℕ,
      agnWalk dtn sfk sqrt_dt stream (pos + n1)
          (agnWalk dtn sfk sqrt_dt stream pos dx0 n1) k
        = agnWalk dtn sfk sqrt_dt stream pos dx0 (n1 + k) := by
  intro k
  induction k with
  | zero => simp [agnWalk]
  | succ k ih =>
    have hidx : pos + n1 + k = pos + (n1 + k) := by omega
    have hsum : n1 + (k + 1) = (n1 + k) + 1 := by omega
    rw [hsum]
    simp only [agnWalk, ih, hidx]

/-- The simulation core succeeds exactly when the requested time lies
strictly after the start date: at equality, nbins = 0 and the code
raises UnboundLocalError reading the never-assigned dx1. -/
theorem agnSimulate_isOk_iff (tau : ℚ) (sfint : Fin 6 → ℚ) (stream : ℕ → ℚ)
    (sqrt_dt : ℚ) (start_date : ℚ) (pos0 : ℕ) (dx_0 : Fin 6 → ℚ) (t : ℚ)
    (htau : 0 < tau) :
    (agnSimulate tau sfint stream sqrt_dt start_date pos0 dx_0 t).isOk = true
      ↔ start_date < t := by
  have hdtpos : 0 < tau / 100 := by positivity
  constructor
  · intro hok
    by_contra hnlt
    have hle : t - start_date ≤ 0 := by
      have := not_lt.mp hnlt
      linarith
    have hdiv : (t - start_date) / (tau / 100) ≤ 0 :=
      div_nonpos_iff.mpr (Or.inr ⟨hle, le_of_lt hdtpos⟩)
    have hceil : ⌈(t - start_date) / (tau / 100)⌉ ≤ 0 :=
      Int.ceil_le.mpr (by push_cast; exact hdiv)
    have hnb : (⌈(t - start_date) / (tau / 100)⌉).toNat = 0 := by omega
    simp only [agnSimulate] at hok
    rw [hnb] at hok
    simp [Except.isOk, Except.toBool] at hok
  · intro hlt
    have hpos : 0 < (t - start_date) / (tau / 100) := div_pos (by linarith) hdtpos
    have hcpos : 0 < ⌈(t - start_date) / (tau / 100)⌉ := Int.ceil_pos.mpr hpos
    obtain ⟨m, hm⟩ : ∃ m, (⌈(t - start_date) / (tau / 100)⌉).toNat = m + 1 :=
      ⟨(⌈(t - start_date) / (tau / 100)⌉).toNat - 1, by omega⟩
    simp only [agnSimulate]
    rw [hm]
    rfl

/-- The cache entry produced by a successful simulation: last time
advanced by nbins whole steps, generator advanced by nbins draws, and
the per-band displacement after nbins steps. -/
theorem agnSimulate_snd (tau : ℚ) (sfint : Fin 6 → ℚ) (stream : ℕ → ℚ)
    (sqrt_dt : ℚ) (start_date : ℚ) (pos0 : ℕ) (dx_0 : Fin 6 → ℚ) (t : ℚ)
    (r : (Fin 6 → ℚ) × AgnEntry)
    (h : agnSimulate tau sfint stream sqrt_dt start_date pos0 dx_0 t = .ok r) :
    r.2 = { mjd := start_date
              + (((⌈(t - start_date) / (tau / 100)⌉).toNat : ℚ)) * (tau / 100),
            rngPos := pos0 + (⌈(t - start_date) / (tau / 100)⌉).toNat,
            dx := fun k => agnWalk ((tau / 100) / tau) (sfint k) sqrt_dt stream pos0
              (dx_0 k) ((⌈(t - start_date) / (tau / 100)⌉).toNat) } := by
  simp only [agnSimulate] at h
  cases hm : (⌈(t - start_date) / (tau / 100)⌉).toNat with
  | zero =>
    rw [hm] at h
    simp at h
  | succ m =>
    rw [hm] at h
    dsimp only at h
    simp only [Except.ok.injEq] at h
    rw [← h]

/-- Resuming an AGN simulation from the point reached after n1 whole
steps reproduces the direct simulation from the origin completely: the
magnitude offsets and the stored cache entry agree exactly. -/
theorem agnSimulate_shift (tau toff t2 : ℚ) (sfint : Fin 6 → ℚ) (stream : ℕ → ℚ)
    (sqrt_dt : ℚ) (n1 : ℕ) (htau : 0 < tau)
    (hlt : toff + (n1 : ℚ) * (tau / 100) < t2) :
    agnSimulate tau sfint stream sqrt_dt (toff + (n1 : ℚ) * (tau / 100)) n1
        (fun k => agnWalk ((tau / 100) / tau) (sfint k) sqrt_dt stream 0 0 n1) t2
      = agnSimulate tau sfint stream sqrt_dt toff 0 (fun _ => 0) t2 := by
  have hdtpos : 0 < tau / 100 := by positivity
  have harg : (t2 - (toff + (n1 : ℚ) * (tau / 100))) / (tau / 100)
      = (t2 - toff) / (tau / 100) - ((n1 : ℤ) : ℚ) := by
    field_simp
    ring
  have hceil : ⌈(t2 - (toff + (n1 : ℚ) * (tau / 100))) / (tau / 100)⌉
      = ⌈(t2 - toff) / (tau / 100)⌉ - (n1 : ℤ) := by
    rw [harg, Int.ceil_sub_int]
  have hn1lt : (n1 : ℤ) < ⌈(t2 - toff) / (tau / 100)⌉ := by
    rw [Int.lt_ceil]
    push_cast
    rw [lt_div_iff₀ hdtpos]
    linarith
  set Ni : ℤ := ⌈(t2 - toff) / (tau / 100)⌉ with hNi
  have hs1 : (⌈(t2 - (toff + (n1 : ℚ) * (tau / 100))) / (tau / 100)⌉).toNat
      = (Ni.toNat - n1 - 1) + 1 := by
    rw [hceil]
    omega
  have hs2 : Ni.toNat = (Ni.toNat - 1) + 1 := by omega
  have hwalk : ∀ (k : Fin 6) (j : ℕ),
      agnWalk ((tau / 100) / tau) (sfint k) sqrt_dt stream n1
          (agnWalk ((tau / 100) / tau) (sfint k) sqrt_dt stream 0 0 n1) j
        = agnWalk ((tau / 100) / tau) (sfint k) sqrt_dt stream 0 0 (n1 + j) := by
    intro k j
    have hs := agnWalk_split ((tau / 100) / tau) (sfint k) sqrt_dt stream 0 0 n1 j
    rwa [Nat.zero_add] at hs
  have hidx1 : n1 + (Ni.toNat - n1 - 1) = Ni.toNat - 1 := by omega
  have hidx2 : n1 + (Ni.toNat - n1 - 1 + 1) = Ni.toNat - 1 + 1 := by omega
  have hq : ((Ni.toNat - n1 - 1 + 1 : ℕ) : ℚ)
      = ((Ni.toNat - 1 + 1 : ℕ) : ℚ) - (n1 : ℚ) := by
    have hcast := congrArg (fun x : ℕ => (x : ℚ)) hidx2
    push_cast at hcast
    push_cast
    linarith
  have hden : ∀ a : ℚ, (a - 1) * (tau / 100) - a * (tau / 100) = -(tau / 100) := by
    intro a
    ring
  simp only [agnSimulate]
  conv_lhs => rw [hs1]
  conv_rhs => rw [hs2]
  dsimp only
  refine congrArg Except.ok ?_
  simp only [Prod.mk.injEq]
  constructor
  · funext k
    rw [hwalk k (Ni.toNat - n1 - 1), hwalk k (Ni.toNat - n1 - 1 + 1), hidx1, hidx2]
    rw [hq]
    rw [hden (((Ni.toNat - 1 + 1 : ℕ) : ℚ) - (n1 : ℚ)), hden ((Ni.toNat - 1 + 1 : ℕ) : ℚ)]
    exact congrArg (fun z => z / (-(tau / 100))) (by ring)
  · simp only [AgnEntry.mk.injEq]
    refine ⟨?_, by omega, ?_⟩
    · rw [hq]
      ring
    · funext k
      rw [hwalk k (Ni.toNat - n1 - 1 + 1), hidx2]

/-! ### The three call shapes of applyAgnOne -/

theorem applyAgnOne_empty (agn_id : String) (tau toff : ℚ) (sfint : Fin 6 → ℚ)
    (stream : ℕ → ℚ) (sqrt_dt : ℚ) (t : ℚ) (hge : ¬ t - toff < 0) :
    applyAgnOne agn_id tau toff sfint stream sqrt_dt t []
      = (agnSimulate tau sfint stream sqrt_dt toff 0 (fun _ => 0) t).map
          (fun r => (r.1, agnCacheUpdate [] agn_id r.2)) := by
  simp only [applyAgnOne, List.lookup]
  rw [if_neg hge]
  cases agnSimulate tau sfint stream sqrt_dt toff 0 (fun _ => 0) t <;> rfl

theorem applyAgnOne_cached (agn_id : String) (tau toff : ℚ) (sfint : Fin 6 → ℚ)
    (stream : ℕ → ℚ) (sqrt_dt : ℚ) (t : ℚ) (e : AgnEntry) (hres : e.mjd < t) :
    applyAgnOne agn_id tau toff sfint stream sqrt_dt t [(agn_id, e)]
      = (agnSimulate tau sfint stream sqrt_dt e.mjd e.rngPos e.dx t).map
          (fun r => (r.1, agnCacheUpdate [(agn_id, e)] agn_id r.2)) := by
  have hge : ¬ t - e.mjd < 0 := by linarith
  simp only [applyAgnOne, List.lookup, beq_self_eq_true, if_pos hres]
  rw [if_neg hge]
  cases agnSimulate tau sfint stream sqrt_dt e.mjd e.rngPos e.dx t <;> rfl

theorem applyAgnOne_cached_stale (agn_id : String) (tau toff : ℚ) (sfint : Fin 6 → ℚ)
    (stream : ℕ → ℚ) (sqrt_dt : ℚ) (t : ℚ) (e : AgnEntry) (hres : ¬ e.mjd < t)
    (hge : ¬ t - toff < 0) :
    applyAgnOne agn_id tau toff sfint stream sqrt_dt t [(agn_id, e)]
      = (agnSimulate tau sfint stream sqrt_dt toff 0 (fun _ => 0) t).map
          (fun r => (r.1, agnCacheUpdate [(agn_id, e)] agn_id r.2)) := by
  simp only [applyAgnOne, List.lookup, beq_self_eq_true, if_neg hres]
  rw [if_neg hge]
  cases agnSimulate tau sfint stream sqrt_dt toff 0 (fun _ => 0) t <;> rfl

/-! ### Theorems for the AGN claims -/

/-- C1 (amended): AGN resumability holds for every strictly interior
first time: for t0 < t1 < t2, evaluating a fresh process at t1 and then
at t2 (resuming from the cached generator state, running displacement
and last time) yields at t2 exactly the per-band magnitude offsets of a
single direct evaluation at t2 from t0 with the same draw stream, both
paths taking steps of size tau/100; the agreement is exact over the
rational model.  At t1 = t0 exactly, the t1 evaluation raises
UnboundLocalError (zero simulation bins leave dx1 unassigned at line
926), so the resumability property cannot include t1 = t0 (see the
boundary counterexample). -/
theorem agn_resumption_matches_direct (agn_id : String) (tau toff : ℚ)
    (sfint : Fin 6 → ℚ) (stream : ℕ → ℚ) (sqrt_dt : ℚ) (t1 t2 : ℚ)
    (htau : 0 < tau) (h1 : toff < t1) (h12 : t1 < t2) :
    ((applyAgnOne agn_id tau toff sfint stream sqrt_dt t1 []).bind
        (fun r => applyAgnOne agn_id tau toff sfint stream sqrt_dt t2 r.2)).map Prod.fst
      = (applyAgnOne agn_id tau toff sfint stream sqrt_dt t2 []).map Prod.fst := by
  have hc1 : ¬ t1 - toff < 0 := by linarith
  have hc2 : ¬ t2 - toff < 0 := by linarith
  rw [applyAgnOne_empty agn_id tau toff sfint stream sqrt_dt t1 hc1,
    applyAgnOne_empty agn_id tau toff sfint stream sqrt_dt t2 hc2]
  cases hr1 : agnSimulate tau sfint stream sqrt_dt toff 0 (fun _ => 0) t1 with
  | error er =>
    have hok := (agnSimulate_isOk_iff tau sfint stream sqrt_dt toff 0 (fun _ => 0) t1
      htau).mpr h1
    rw [hr1] at hok
    simp [Except.isOk, Except.toBool] at hok
  | ok r1 =>
    have hentry := agnSimulate_snd tau sfint stream sqrt_dt toff 0 (fun _ => 0) t1 r1 hr1
    have hupd : agnCacheUpdate [] agn_id r1.2 = [(agn_id, r1.2)] := rfl
    simp only [Except.map, Except.bind, hupd]
    by_cases hres : r1.2.mjd < t2
    · rw [applyAgnOne_cached agn_id tau toff sfint stream sqrt_dt t2 r1.2 hres]
      have hmjd : r1.2.mjd
          = toff + (((⌈(t1 - toff) / (tau / 100)⌉).toNat : ℚ)) * (tau / 100) := by
        rw [hentry]
      have hpos : r1.2.rngPos = (⌈(t1 - toff) / (tau / 100)⌉).toNat := by
        rw [hentry]
        show 0 + _ = _
        omega
      have hdx : r1.2.dx = fun k => agnWalk ((tau / 100) / tau) (sfint k) sqrt_dt stream
          0 0 ((⌈(t1 - toff) / (tau / 100)⌉).toNat) := by
        rw [hentry]
      rw [hmjd, hpos, hdx]
      rw [agnSimulate_shift tau toff t2 sfint stream sqrt_dt
        ((⌈(t1 - toff) / (tau / 100)⌉).toNat) htau (by rw [← hmjd]; exact hres)]
      cases agnSimulate tau sfint stream sqrt_dt toff 0 (fun _ => 0) t2 <;> rfl
    · rw [applyAgnOne_cached_stale agn_id tau toff sfint stream sqrt_dt t2 r1.2 hres hc2]
      cases agnSimulate tau sfint stream sqrt_dt toff 0 (fun _ => 0) t2 <;> rfl

/-- C1 counterexample (the boundary): at t1 exactly equal to the start
time (allowed by the claim, which requires only t1 at or after t0) the
t1 evaluation raises UnboundLocalError — zero simulation bins leave dx1
unassigned at line 926 — so calling applyAgn at t1 and then at t2
produces an exception rather than the direct offsets at t2: the two
sides differ. -/
theorem agn_resumption_boundary_counterexample :
    ((applyAgnOne "agn" 100 0 (fun _ => 1) (fun n => (n : ℚ)) (1/10) 0 []).bind
        (fun r => applyAgnOne "agn" 100 0 (fun _ => 1) (fun n => (n : ℚ)) (1/10) 1 r.2)).map
          Prod.fst
      ≠ (applyAgnOne "agn" 100 0 (fun _ => 1) (fun n => (n : ℚ)) (1/10) 1 []).map
          Prod.fst := by
  intro hcontra
  have h1 : (((applyAgnOne "agn" 100 0 (fun _ => 1) (fun n => (n : ℚ)) (1/10) 0 []).bind
      (fun r => applyAgnOne "agn" 100 0 (fun _ => 1) (fun n => (n : ℚ)) (1/10) 1 r.2)).map
        Prod.fst).isOk = false := by
    with_unfolding_all decide
  have h2 : ((applyAgnOne "agn" 100 0 (fun _ => 1) (fun n => (n : ℚ)) (1/10) 1 []).map
      Prod.fst).isOk = true := by
    with_unfolding_all decide
  rw [hcontra] at h1
  rw [h1] at h2
  exact absurd h2 (by decide)

/-- C1 witness: the amended resumability theorem applied at a concrete
input (tau 100 so the step size is one day, start time 0, evaluations
at day 1 and day 2). -/
theorem agn_resumption_matches_direct_witness :
    (0 : ℚ) < 100 ∧ (0 : ℚ) < 1 ∧ (1 : ℚ) < 2 ∧
      ((applyAgnOne "agn" 100 0 (fun _ => 1) (fun n => (n : ℚ)) (1/10) 1 []).bind
          (fun r => applyAgnOne "agn" 100 0 (fun _ => 1) (fun n => (n : ℚ)) (1/10) 2 r.2)).map
            Prod.fst
        = (applyAgnOne "agn" 100 0 (fun _ => 1) (fun n => (n : ℚ)) (1/10) 2 []).map
            Prod.fst :=
  ⟨by norm_num, by norm_num, by norm_num,
    agn_resumption_matches_direct "agn" 100 0 (fun _ => 1) (fun n => (n : ℚ)) (1/10) 1 2
      (by norm_num) (by norm_num) (by norm_num)⟩

theorem natKey_injective : Function.Injective natKey := by
  intro a b h
  unfold natKey at h
  have hdata : List.replicate a 'a' = List.replicate b 'a' := congrArg String.data h
  have hlen := congrArg List.length hdata
  simpa using hlen

theorem agnCacheUpdate_fresh (c : AgnCache) (k : String) (e : AgnEntry)
    (hlen : ¬ 1000000 < c.length) (hlook : List.lookup k c = none) :
    agnCacheUpdate c k e = c ++ [(k, e)] := by
  unfold agnCacheUpdate
  simp only [if_neg hlen, hlook]

theorem agnCacheUpdate_overflow (c : AgnCache) (k : String) (e : AgnEntry)
    (hlen : 1000000 < c.length) :
    agnCacheUpdate c k e = [(k, e)] := by
  unfold agnCacheUpdate
  simp only [if_pos hlen, reset_agn_lc_cache, List.lookup]
  rfl

theorem lookup_keyRun (key : ℕ → String) (hinj : Function.Injective key) (e : AgnEntry)
    (m : ℕ) :
    ∀ is : List ℕ,
      List.lookup (key m) (is.map (fun i => (key i, e)))
        = if m ∈ is then some e else none := by
  intro is
  induction is with
  | nil => simp
  | cons i rest ih =>
    simp only [List.map_cons, List.lookup]
    by_cases h : m = i
    · subst h
      simp
    · have hbeq : (key m == key i) = false := by
        rw [beq_eq_false_iff_ne]
        exact fun hc => h (hinj hc)
      rw [hbeq, ih]
      simp [h]

theorem agnInsertRun_no_clear (key : ℕ → String) (hinj : Function.Injective key)
    (e : AgnEntry) :
    ∀ n, n ≤ 1000000 →
      agnInsertRun key e n = (List.range (n + 1)).map (fun i => (key i, e)) := by
  intro n
  induction n with
  | zero =>
    intro _
    simp [agnInsertRun, agnCacheUpdate, reset_agn_lc_cache, List.range_succ]
  | succ n ih =>
    intro hle
    have hn : n ≤ 1000000 := by omega
    simp only [agnInsertRun]
    rw [ih hn]
    have hlen : ((List.range (n + 1)).map (fun i => (key i, e))).length = n + 1 := by
      rw [List.length_map, List.length_range]
    rw [agnCacheUpdate_fresh _ _ _ (by rw [hlen]; omega)
      (by rw [lookup_keyRun key hinj e (n + 1) (List.range (n + 1))]
          rw [if_neg (by simp)])]
    conv_rhs => rw [List.range_succ, List.map_append]
    rfl

/-- C8 counterexample: after inserting 1,000,001 distinct AGN identities
(which is more than 1,000,000) NO clear has yet occurred: the very
first identity still hits, and the cache holds 1,000,001 live entries,
exceeding the claimed one-million cap. -/
theorem agn_cache_bound_counterexample :
    List.lookup (natKey 0) (agnInsertRun natKey agnEntry0 1000000) = some agnEntry0
      ∧ 1000000 < (agnInsertRun natKey agnEntry0 1000000).length := by
  rw [agnInsertRun_no_clear natKey natKey_injective agnEntry0 1000000 (by omega)]
  constructor
  · rw [lookup_keyRun natKey natKey_injective agnEntry0 0 (List.range (1000000 + 1))]
    rw [if_pos (List.mem_range.mpr (by omega))]
  · rw [List.length_map, List.length_range]
    omega

/-- C8 (amended): the full clear fires on the first insertion that finds
the cache already holding more than 1,000,000 entries.  Hence after
1,000,001 distinct identities the cache still holds all 1,000,001
entries (the first identity hits), and on the 1,000,002-nd distinct
insertion the cache is cleared and rebuilt with only the newest
identity, so the first identity then misses. -/
theorem agn_cache_bound_amended (key : ℕ → String) (e : AgnEntry)
    (hinj : Function.Injective key) :
    List.lookup (key 0) (agnInsertRun key e 1000000) = some e
      ∧ agnInsertRun key e 1000001 = [(key 1000001, e)]
      ∧ List.lookup (key 0) (agnInsertRun key e 1000001) = none := by
  have hfull := agnInsertRun_no_clear key hinj e 1000000 (by omega)
  have hhit : List.lookup (key 0) (agnInsertRun key e 1000000) = some e := by
    rw [hfull, lookup_keyRun key hinj e 0 (List.range (1000000 + 1)),
      if_pos (List.mem_range.mpr (by omega))]
  have hstep : agnInsertRun key e 1000001
      = agnCacheUpdate (agnInsertRun key e 1000000) (key 1000001) e := rfl
  have hlen : (agnInsertRun key e 1000000).length = 1000000 + 1 := by
    rw [hfull, List.length_map, List.length_range]
  have hclear : agnInsertRun key e 1000001 = [(key 1000001, e)] := by
    rw [hstep, agnCacheUpdate_overflow _ _ _ (by rw [hlen]; omega)]
  refine ⟨hhit, hclear, ?_⟩
  rw [hclear]
  simp only [List.lookup]
  have hbeq : (key 0 == key 1000001) = false := by
    rw [beq_eq_false_iff_ne]
    exact fun hc => by simpa using hinj hc
  rw [hbeq]

/-- C8 witness: the amended cache-bound theorem applied to the concrete
injective identity family natKey. -/
theorem agn_cache_bound_amended_witness :
    List.lookup (natKey 0) (agnInsertRun natKey agnEntry0 1000000) = some agnEntry0
      ∧ agnInsertRun natKey agnEntry0 1000001 = [(natKey 1000001, agnEntry0)]
      ∧ List.lookup (natKey 0) (agnInsertRun natKey agnEntry0 1000001) = none :=
  agn_cache_bound_amended natKey agnEntry0 natKey_injective

/-! ### Theorems for the periodic sub-evaluator claims -/

/-- C5: Phase wraparound.  For every time, epoch offset and positive
period, the interpolation phase epoch/period - floor(epoch/period)
computed by applyStdPeriodic lies in the half-open interval [0, 1),
however large or negative the epoch. -/
theorem stdPeriodicPhase_mem_Ico (t toff period : ℚ) (_hp : 0 < period) :
    0 ≤ stdPeriodicPhase (t - toff) period ∧ stdPeriodicPhase (t - toff) period < 1 := by
  unfold stdPeriodicPhase
  exact ⟨Int.fract_nonneg ((t - toff) / period), Int.fract_lt_one ((t - toff) / period)⟩

/-- C5 witness: the phase bound applied at time -7, offset 0, period 2. -/
theorem stdPeriodicPhase_mem_Ico_witness :
    (0 : ℚ) < 2 ∧ (0 ≤ stdPeriodicPhase ((-7) - 0) 2 ∧ stdPeriodicPhase ((-7) - 0) 2 < 1) :=
  ⟨by norm_num, stdPeriodicPhase_mem_Ico (-7) 0 2 (by norm_num)⟩

theorem stdPeriodicLoop_proj (interp1d : Interp) (files : String → LightCurve)
    (params : ParamTable) (keymapFilename keymapT0 : String) (inDays : Bool)
    (interpFactory : Option Interp) (ts : List ℚ) (k : ℕ) :
    ∀ (dexes : List ℕ) (m3 : Mag3) (m2 : Mag2) (s : VarState),
      (fun b i => m3 b i k) = m2 →
      (stdPeriodicLoopV interp1d files params keymapFilename keymapT0 inDays
            interpFactory ts dexes m3 s).map (fun r => ((fun b i => r.1 b i k), r.2))
        = stdPeriodicLoopS interp1d files params keymapFilename keymapT0 inDays
            interpFactory (ts.getD k 0) dexes m2 s := by
  intro dexes
  induction dexes with
  | nil =>
    intro m3 m2 s hm
    simp only [stdPeriodicLoopV, stdPeriodicLoopS, Except.map, hm]
  | cons ix rest ih =>
    intro m3 m2 s hm
    simp only [stdPeriodicLoopV, stdPeriodicLoopS]
    cases hobj : stdPeriodicObjData interp1d files params keymapFilename keymapT0 inDays
        interpFactory ix s with
    | error e => simp [Except.map]
    | ok r =>
      obtain ⟨splines, period, toff, s2⟩ := r
      apply ih
      funext b i
      simp only [writeObjV, writeObjS, setMag3, setMag2]
      split_ifs <;> first
        | rfl
        | exact congrFun (congrFun hm b) i

/-- C4: Scalar/vector consistency of the periodic light-curve
sub-evaluator (hence of applyRRly, applyCepheid and the flux stage of
applyEb, which delegate to it): evaluating at a vector of times yields
at each time index k, for every band and object, exactly the offsets
of a separate scalar evaluation at the k-th time from the same starting
cache state. -/
theorem applyStdPeriodic_scalar_vector_consistent (interp1d : Interp)
    (files : String → LightCurve) (valid_dexes : List ℕ) (params : ParamTable)
    (keymapFilename keymapT0 : String) (inDays : Bool) (interpFactory : Option Interp)
    (ts : List ℚ) (s : VarState) (k b ix : ℕ) (_hk : k < ts.length) :
    (applyStdPeriodicV interp1d files valid_dexes params keymapFilename keymapT0
        inDays interpFactory ts s).map (fun r => r.1 b ix k)
      = (applyStdPeriodicS interp1d files valid_dexes params keymapFilename keymapT0
          inDays interpFactory (ts.getD k 0) s).map (fun r => r.1 b ix) := by
  have h := stdPeriodicLoop_proj interp1d files params keymapFilename keymapT0 inDays
    interpFactory ts k valid_dexes (fun _ _ _ => 0) (fun _ _ => 0) s rfl
  unfold applyStdPeriodicV applyStdPeriodicS
  rw [← h]
  cases stdPeriodicLoopV interp1d files params keymapFilename keymapT0 inDays
      interpFactory ts valid_dexes (fun _ _ _ => 0) s with
  | error e => simp [Except.map]
  | ok r => simp [Except.map]

/-- C4 witness: the consistency theorem applied at a concrete input
(two objects sharing a file, identity interpolants, times 3 and 5,
index k = 0). -/
theorem applyStdPeriodic_scalar_vector_consistent_witness :
    (0 < ([(3 : ℚ), 5]).length) ∧
      ((applyStdPeriodicV (fun _ _ q => q)
          (fun _ => { time := [0, 1], flux := fun _ => [0, 1] }) [0, 1]
          (rrTwoObjParams "f" 0 0 1 1) "filename" "tStartMjd" true none [(3 : ℚ), 5]
          { variabilityInitialized := true, variabilityCache := true,
            variabilityLcCache := [] }).map (fun r => r.1 0 0 0)
        = (applyStdPeriodicS (fun _ _ q => q)
            (fun _ => { time := [0, 1], flux := fun _ => [0, 1] }) [0, 1]
            (rrTwoObjParams "f" 0 0 1 1) "filename" "tStartMjd" true none
            (([(3 : ℚ), 5]).getD 0 0)
            { variabilityInitialized := true, variabilityCache := true,
              variabilityLcCache := [] }).map (fun r => r.1 0 0)) :=
  ⟨by decide,
    applyStdPeriodic_scalar_vector_consistent (fun _ _ q => q)
      (fun _ => { time := [0, 1], flux := fun _ => [0, 1] }) [0, 1]
      (rrTwoObjParams "f" 0 0 1 1) "filename" "tStartMjd" true none [(3 : ℚ), 5]
      { variabilityInitialized := true, variabilityCache := true,
        variabilityLcCache := [] } 0 0 0 (by decide)⟩

/-- C10: the applyVariability path always enables light-curve caching
(initializeVariability is invoked with doCache=True on first dispatch),
and applyStdPeriodic keys its cache by file name only, so when two
objects reference the same light-curve file the second object is
evaluated with the period cached by the first and its own explicit
period parameter is ignored: the result does not depend on it at all. -/
theorem periodic_cache_conflates_period :
    (∀ s : VarState, s.variabilityInitialized = false →
        (applyVariabilityInitState s).variabilityCache = true)
      ∧ ∀ (interp1d factory : Interp) (files : String → LightCurve) (f : String)
          (t01 t02 p0 p1 p1b t : ℚ) (s : VarState),
          s.variabilityCache = true →
          List.lookup f s.variabilityLcCache = none →
          applyStdPeriodicS interp1d files [0, 1] (rrTwoObjParams f t01 t02 p0 p1)
              "filename" "tStartMjd" true (some factory) t s
            = applyStdPeriodicS interp1d files [0, 1] (rrTwoObjParams f t01 t02 p0 p1b)
              "filename" "tStartMjd" true (some factory) t s := by
  constructor
  · intro s h
    simp [applyVariabilityInitState, h, initializeVariability]
  · intro interp1d factory files f t01 t02 p0 p1 p1b t s hcache hmiss
    simp [applyStdPeriodicS, stdPeriodicLoopS, stdPeriodicObjData, getStrParam,
      getNumParam, rrTwoObjParams, List.lookup, List.getD, hcache, hmiss]

/-- C10 witness: the conflation theorem applied at a concrete state and
at concrete periods 7 and 9 for the second object. -/
theorem periodic_cache_conflates_period_witness :
    (applyVariabilityInitState
        { variabilityInitialized := false, variabilityCache := false,
          variabilityLcCache := [] }).variabilityCache = true
      ∧ applyStdPeriodicS (fun _ _ q => q) (fun _ => { time := [0, 1], flux := fun _ => [0, 1] })
          [0, 1] (rrTwoObjParams "f" 0 0 1 7) "filename" "tStartMjd" true
          (some (fun _ _ q => q)) 3
          { variabilityInitialized := true, variabilityCache := true,
            variabilityLcCache := [] }
        = applyStdPeriodicS (fun _ _ q => q) (fun _ => { time := [0, 1], flux := fun _ => [0, 1] })
            [0, 1] (rrTwoObjParams "f" 0 0 1 9) "filename" "tStartMjd" true
            (some (fun _ _ q => q)) 3
            { variabilityInitialized := true, variabilityCache := true,
              variabilityLcCache := [] } :=
  ⟨periodic_cache_conflates_period.1
      { variabilityInitialized := false, variabilityCache := false,
        variabilityLcCache := [] } rfl,
    periodic_cache_conflates_period.2 (fun _ _ q => q) (fun _ _ q => q)
      (fun _ => { time := [0, 1], flux := fun _ => [0, 1] }) "f" 0 0 1 7 9 3
      { variabilityInitialized := true, variabilityCache := true,
        variabilityLcCache := [] } rfl rfl⟩

/-! ### Theorems for the Amcvn burst-clipping claim -/

/-- C6 (amended): the factor (tmp < 1.0) multiplies the pulse term, so a
burst pulse contributes -amp_burst*tmp exactly when the exponential
value tmp = exp(-(t-o)/burst_scale)/exp(-1) is BELOW the threshold 1,
and is clipped to zero when tmp is at or above 1 — the opposite
direction of the claim (which has the contribution clipped once tmp has
decayed below 1 and applied otherwise). -/
theorem amcvnPulseContribution_clip (expF : ℚ → ℚ) (amp_burst burst_scale epoch o : ℚ) :
    amcvnPulseContribution expF amp_burst burst_scale epoch o
      = if expF (-1 * (epoch - o) / burst_scale) / expF (-1) < 1
          then -(amp_burst * (expF (-1 * (epoch - o) / burst_scale) / expF (-1)))
          else 0 := by
  simp only [amcvnPulseContribution]
  set tmp := expF (-1 * (epoch - o) / burst_scale) / expF (-1) with htmp
  split_ifs with h
  · ring
  · ring

/-- Robustness of the clipping direction: for EVERY exponential routine,
whenever the computed exponential value lies strictly between 0 and the
threshold 1 (as the true exp does at any epoch more than one burst
scale past the pulse) and the burst amplitude is nonzero, the code
contributes a nonzero pulse term — where the claim as stated requires
the contribution to be clipped to zero. -/
theorem amcvnPulseContribution_nonzero_below_threshold (expF : ℚ → ℚ)
    (amp_burst burst_scale epoch o : ℚ) (hamp : amp_burst ≠ 0)
    (h0 : 0 < expF (-1 * (epoch - o) / burst_scale) / expF (-1))
    (h1 : expF (-1 * (epoch - o) / burst_scale) / expF (-1) < 1) :
    amcvnPulseContribution expF amp_burst burst_scale epoch o ≠ 0 := by
  simp only [amcvnPulseContribution]
  rw [if_pos h1]
  intro hc
  have : amp_burst * (expF (-1 * (epoch - o) / burst_scale) / expF (-1)) = 0 := by
    linarith [neg_eq_zero.mp (by linarith [hc] : -(amp_burst
      * (expF (-1 * (epoch - o) / burst_scale) / expF (-1)) * 1) = 0)]
  rcases mul_eq_zero.mp this with ha | htmp
  · exact hamp ha
  · rw [htmp] at h0
    exact lt_irrefl 0 h0

/-- C6 counterexample: epoch two burst-scale units after the pulse time,
amp_burst 1, burst_scale 1.  There tmp is about exp(-1), below the
threshold, so the claim as stated says the contribution is clipped to
zero; the code applies the full -amp_burst*tmp, which is nonzero.
(expPade stands in for the float exp; tmp = 19/49 here versus the exact
exp(-1) = 0.3679, on the same side of the threshold.) -/
theorem amcvnPulseContribution_counterexample :
    expPade (-1 * (2 - 0) / 1) / expPade (-1) < 1
      ∧ amcvnPulseContribution expPade 1 1 2 0 ≠ 0 := by
  constructor
  · with_unfolding_all decide
  · with_unfolding_all decide

/-! ### Theorems for the demultiplexer missing-parameter claim -/

/-- C7 (amended): order matters.  When the object carrying parameter P
comes first among the objects of model M, the later object lacking P
gets the None sentinel in its slot and no error is raised; but when the
first-seen object of model M lacks P, a later object supplying P makes
the demultiplexer raise a KeyError, because the slot lists of a model
are created only for the parameter names of its first-seen object. -/
theorem demux_missing_param_order (M P : String) (v : PVal) :
    demux [Blob.cmd [("m", .str M), ("p", .dict [(P, v)])],
           Blob.cmd [("m", .str M), ("p", .dict [])]]
        = .ok { method_name_arr := [M, M], params := [(M, [(P, [some v, none])])] }
      ∧ (demux [Blob.cmd [("m", .str M), ("p", .dict [])],
                Blob.cmd [("m", .str M), ("p", .dict [(P, v)])]]).isOk = false := by
  constructor
  · simp [demux, demuxLoop, demuxStep, blobFields, writeParams, setSlot, assocSet,
      List.lookup, List.replicate]
  · simp [demux, demuxLoop, demuxStep, blobFields, writeParams, setSlot, assocSet,
      List.lookup, List.replicate, Except.isOk, Except.toBool]

/-- C7 counterexample: two objects of the same model M where the first
object's parameter dict is empty and the second supplies parameter a;
the demultiplexer raises (KeyError) instead of populating a None slot. -/
theorem demux_missing_param_counterexample :
    (demux [Blob.cmd [("m", .str "M"), ("p", .dict [])],
            Blob.cmd [("m", .str "M"), ("p", .dict [("a", .num 1)])]]).isOk = false := by
  with_unfolding_all decide

/-! ### Shape lemmas for the orchestrator -/

theorem addRow_length : ∀ (a b c : List ℚ), addRow a b = .ok c → c.length = a.length := by
  intro a
  induction a with
  | nil =>
    intro b c h
    cases b with
    | nil =>
      simp only [addRow, Except.ok.injEq] at h
      rw [← h]
    | cons y ys => simp [addRow] at h
  | cons x xs ih =>
    intro b c h
    cases b with
    | nil => simp [addRow] at h
    | cons y ys =>
      simp only [addRow] at h
      cases hr : addRow xs ys with
      | error e => rw [hr] at h; simp at h
      | ok r =>
        rw [hr] at h
        simp only [Except.ok.injEq] at h
        rw [← h, List.length_cons, List.length_cons, ih ys r hr]

theorem addMat_shape (n : ℕ) :
    ∀ (a b c : List (List ℚ)), addMat a b = .ok c →
      (∀ row ∈ a, row.length = n) →
      c.length = a.length ∧ ∀ row ∈ c, row.length = n := by
  intro a
  induction a with
  | nil =>
    intro b c h _
    cases b with
    | nil =>
      simp only [addMat, Except.ok.injEq] at h
      rw [← h]
      simp
    | cons y ys => simp [addMat] at h
  | cons x xs ih =>
    intro b c h hrows
    cases b with
    | nil => simp [addMat] at h
    | cons y ys =>
      simp only [addMat] at h
      cases hr : addRow x y with
      | error e => rw [hr] at h; simp at h
      | ok r =>
        rw [hr] at h
        cases hm : addMat xs ys with
        | error e => rw [hm] at h; simp at h
        | ok rest =>
          rw [hm] at h
          simp only [Except.ok.injEq] at h
          have hx : x.length = n := hrows x (by simp)
          have hxs : ∀ row ∈ xs, row.length = n := fun row hrow => hrows row (by simp [hrow])
          have hih := ih ys rest hm hxs
          rw [← h]
          refine ⟨by simp [hih.1], ?_⟩
          intro row hrow
          rcases List.mem_cons.mp hrow with hhead | htail
          · rw [hhead, addRow_length x y r hr, hx]
          · exact hih.2 row htail

theorem addCube_shape (n d : ℕ) :
    ∀ (a b c : List (List (List ℚ))), addCube a b = .ok c →
      (∀ m ∈ a, m.length = n ∧ ∀ row ∈ m, row.length = d) →
      c.length = a.length ∧ ∀ m ∈ c, m.length = n ∧ ∀ row ∈ m, row.length = d := by
  intro a
  induction a with
  | nil =>
    intro b c h _
    cases b with
    | nil =>
      simp only [addCube, Except.ok.injEq] at h
      rw [← h]
      simp
    | cons y ys => simp [addCube] at h
  | cons x xs ih =>
    intro b c h hmats
    cases b with
    | nil => simp [addCube] at h
    | cons y ys =>
      simp only [addCube] at h
      cases hr : addMat x y with
      | error e => rw [hr] at h; simp at h
      | ok r =>
        rw [hr] at h
        cases hm : addCube xs ys with
        | error e => rw [hm] at h; simp at h
        | ok rest =>
          rw [hm] at h
          simp only [Except.ok.injEq] at h
          have hx := hmats x (by simp)
          have hxs : ∀ m ∈ xs, m.length = n ∧ ∀ row ∈ m, row.length = d :=
            fun m hmem => hmats m (by simp [hmem])
          have hih := ih ys rest hm hxs
          have hrshape := addMat_shape d x y r hr hx.2
          rw [← h]
          refine ⟨by simp [hih.1], ?_⟩
          intro m hmem
          rcases List.mem_cons.mp hmem with hhead | htail
          · rw [hhead]
            exact ⟨hrshape.1.trans hx.1, hrshape.2⟩
          · exact hih.2 m htail

theorem addN_hasShape (e : ExpMjd) (n : ℕ) (acc res acc2 : NArr)
    (h : addN acc res = .ok acc2) (hs : hasShapeFor acc e n) :
    hasShapeFor acc2 e n := by
  cases acc with
  | mk2 a =>
    cases res with
    | mk2 b =>
      cases e with
      | scalar t =>
        simp only [addN] at h
        cases hm : addMat a b with
        | error er => rw [hm] at h; simp [Except.map] at h
        | ok c =>
          rw [hm] at h
          simp only [Except.map, Except.ok.injEq] at h
          rw [← h]
          simp only [hasShapeFor, shape2] at hs ⊢
          have := addMat_shape n a b c hm hs.2
          exact ⟨this.1.trans hs.1, this.2⟩
      | vector ts => exact absurd hs (by simp [hasShapeFor])
    | mk3 b => simp [addN] at h
  | mk3 a =>
    cases res with
    | mk2 b => simp [addN] at h
    | mk3 b =>
      cases e with
      | scalar t => exact absurd hs (by simp [hasShapeFor])
      | vector ts =>
        simp only [addN] at h
        cases hm : addCube a b with
        | error er => rw [hm] at h; simp [Except.map] at h
        | ok c =>
          rw [hm] at h
          simp only [Except.map, Except.ok.injEq] at h
          rw [← h]
          simp only [hasShapeFor, shape3] at hs ⊢
          have := addCube_shape n ts.length a b c hm hs.2
          exact ⟨this.1.trans hs.1, this.2⟩

theorem dispatchLoop_shape (registry : List (String × Evaluator)) (names : List String)
    (params : List (String × ParamTable)) (e : ExpMjd) (n : ℕ) :
    ∀ (l : List String) (acc d : NArr), hasShapeFor acc e n →
      dispatchLoop registry names params e l acc = .ok d → hasShapeFor d e n := by
  intro l
  induction l with
  | nil =>
    intro acc d hs h
    simp only [dispatchLoop, Except.ok.injEq] at h
    rw [← h]
    exact hs
  | cons name rest ih =>
    intro acc d hs h
    simp only [dispatchLoop] at h
    by_cases hname : name = "None"
    · rw [if_pos hname] at h
      exact ih acc d hs h
    · rw [if_neg hname] at h
      cases hl : List.lookup name registry with
      | none => rw [hl] at h; simp at h
      | some f =>
        rw [hl] at h
        dsimp only at h
        cases hev : f (validDexes name names) ((List.lookup name params).getD []) e with
        | error er => rw [hev] at h; simp at h
        | ok res =>
          rw [hev] at h
          dsimp only at h
          cases ha : addN acc res with
          | error er => rw [ha] at h; simp at h
          | ok acc2 =>
            rw [ha] at h
            dsimp only at h
            exact ih acc2 d (addN_hasShape e n acc res acc2 ha hs) h

theorem zerosFor_hasShape (e : ExpMjd) (n : ℕ) : hasShapeFor (zerosFor e n) e n := by
  cases e with
  | scalar t =>
    simp only [zerosFor, hasShapeFor, shape2, zeros2, zeros1]
    refine ⟨by simp, ?_⟩
    intro row hrow
    rw [List.eq_of_mem_replicate hrow]
    simp
  | vector ts =>
    simp only [zerosFor, hasShapeFor, shape3, zeros3, zeros2, zeros1]
    refine ⟨by simp, ?_⟩
    intro m hmem
    rw [List.eq_of_mem_replicate hmem]
    refine ⟨by simp, ?_⟩
    intro row hrow
    rw [List.eq_of_mem_replicate hrow]
    simp

/-- C3: Shape contract.  Whatever the registry, the batch and the time
argument, a successful applyVariability dispatch returns a (6, N) array
for a scalar time and a (6, N, T) array for a vector of T times, N
being the batch length, including N = 0. -/
theorem applyVariability_shape (registry : List (String × Evaluator)) (blobs : List Blob)
    (expmjd : ExpMjd) (d : NArr)
    (h : applyVariabilityDeltaMag registry blobs expmjd = .ok d) :
    hasShapeFor d expmjd blobs.length := by
  simp only [applyVariabilityDeltaMag] at h
  cases hx : (if blobs.length = 0 then runRegistryEmpty registry else Except.ok ()) with
  | error er => rw [hx] at h; simp at h
  | ok u =>
    rw [hx] at h
    cases hd : demux blobs with
    | error er => rw [hd] at h; simp at h
    | ok st =>
      rw [hd] at h
      exact dispatchLoop_shape registry st.method_name_arr st.params expmjd blobs.length
        (npUnique st.method_name_arr) (zerosFor expmjd blobs.length) d
        (zerosFor_hasShape expmjd blobs.length) h

/-- C3 witness: the shape theorem applied to a concrete one-null-blob
batch at a scalar time. -/
theorem applyVariability_shape_witness :
    applyVariabilityDeltaMag [] [Blob.null] (.scalar 0) = .ok (.mk2 (zeros2 6 1))
      ∧ hasShapeFor (.mk2 (zeros2 6 1)) (.scalar 0) 1 :=
  ⟨rfl, applyVariability_shape [] [Blob.null] (.scalar 0) (.mk2 (zeros2 6 1)) rfl⟩

/-! ### The all-null batch -/

theorem runRegistryEmpty_ok :
    ∀ (l : List (String × Evaluator)),
      (∀ p ∈ l, (p.2 [] [] (.scalar 0)).isOk = true) → runRegistryEmpty l = .ok () := by
  intro l
  induction l with
  | nil => intro _; rfl
  | cons p rest ih =>
    intro hall
    obtain ⟨nm, f⟩ := p
    have hp : (f [] [] (.scalar 0)).isOk = true := hall (nm, f) (by simp)
    simp only [runRegistryEmpty]
    cases hev : f [] [] (.scalar 0) with
    | error er =>
      rw [hev] at hp
      simp [Except.isOk, Except.toBool] at hp
    | ok _ =>
      dsimp only
      exact ih (fun q hq => hall q (by simp [hq]))

theorem demuxStep_null_first (nT ix : ℕ) :
    demuxStep nT ix .null { method_name_arr := [], params := [] }
      = .ok { method_name_arr := ["None"], params := [("None", [])] } := rfl

theorem demuxStep_null_rep (nT ix m : ℕ) :
    demuxStep nT ix .null
        { method_name_arr := List.replicate (m + 1) "None", params := [("None", [])] }
      = .ok { method_name_arr := List.replicate (m + 2) "None",
              params := [("None", [])] } := by
  have hcont : (List.replicate (m + 1) "None").contains "None" = true := by
    rw [List.replicate_succ]
    rfl
  simp only [demuxStep, blobFields, hcont, if_true]
  have happ : List.replicate (m + 1) "None" ++ ["None"] = List.replicate (m + 2) "None" := by
    rw [List.replicate_succ' (m + 1)]
  simp only [List.lookup, writeParams, happ]
  rfl

theorem demuxLoop_null (nT : ℕ) :
    ∀ (n ix m : ℕ),
      demuxLoop nT (List.replicate n .null) ix
          { method_name_arr := List.replicate (m + 1) "None", params := [("None", [])] }
        = .ok { method_name_arr := List.replicate (m + 1 + n) "None",
                params := [("None", [])] } := by
  intro n
  induction n with
  | zero => intro ix m; rfl
  | succ n ih =>
    intro ix m
    rw [List.replicate_succ]
    simp only [demuxLoop]
    rw [demuxStep_null_rep nT ix m]
    have hih := ih (ix + 1) (m + 1)
    have heq : m + 1 + 1 + n = m + 1 + (n + 1) := by omega
    rw [heq] at hih
    exact hih

theorem demux_all_null (N : ℕ) (hN : 1 ≤ N) :
    demux (List.replicate N .null)
      = .ok { method_name_arr := List.replicate N "None", params := [("None", [])] } := by
  obtain ⟨n, rfl⟩ : ∃ n, N = n + 1 := ⟨N - 1, by omega⟩
  unfold demux
  rw [List.length_replicate]
  rw [List.replicate_succ]
  simp only [demuxLoop]
  rw [demuxStep_null_first (n + 1) 0]
  have h := demuxLoop_null (n + 1) n 1 0
  rw [show 0 + 1 + n = n + 1 by omega] at h
  exact h

theorem dedupNames_replicate (n : ℕ) :
    dedupNames (List.replicate (n + 1) "None") = ["None"] := by
  have haux : ∀ (m : ℕ) (acc : List String), acc.contains "None" = true →
      List.foldl (fun acc x => if acc.contains x then acc else acc ++ [x]) acc
        (List.replicate m "None") = acc := by
    intro m
    induction m with
    | zero => intro acc _; rfl
    | succ m ihm =>
      intro acc h
      rw [List.replicate_succ]
      simp only [List.foldl_cons, h, if_true]
      exact ihm acc h
  unfold dedupNames
  rw [List.replicate_succ]
  simp only [List.foldl_cons]
  have h0 : (([] : List String).contains "None") = false := rfl
  rw [h0]
  simp only [Bool.false_eq_true, if_false, List.nil_append]
  exact haux n ["None"] rfl

theorem npUnique_replicate (n : ℕ) :
    npUnique (List.replicate (n + 1) "None") = ["None"] := by
  unfold npUnique
  rw [dedupNames_replicate]
  rfl

theorem repGetD (N i : ℕ) (a d : String) (h : i < N) :
    (List.replicate N a).getD i d = a := by
  induction N generalizing i with
  | zero => omega
  | succ n ih =>
    rw [List.replicate_succ]
    cases i with
    | zero => rfl
    | succ j =>
      simp only [List.getD_cons_succ]
      exact ih j (by omega)

/-- C9: Null-blob zero output.  An all-None batch of any length N (with
every registered evaluator accepting the empty dependency-discovery
call, as all the registered models do) yields exactly the all-zero
offset array of the contracted shape, and no model name other than the
null sentinel has any valid index in such a batch. -/
theorem applyVariability_all_null (registry : List (String × Evaluator)) (N : ℕ)
    (expmjd : ExpMjd)
    (hreg : ∀ p ∈ registry, (p.2 [] [] (.scalar 0)).isOk = true) :
    applyVariabilityDeltaMag registry (List.replicate N .null) expmjd
        = .ok (zerosFor expmjd N)
      ∧ ∀ name, name ≠ "None" → validDexes name (List.replicate N "None") = [] := by
  constructor
  · simp only [applyVariabilityDeltaMag, List.length_replicate]
    cases N with
    | zero =>
      rw [if_pos rfl, runRegistryEmpty_ok registry hreg]
      rfl
    | succ n =>
      rw [if_neg (by omega)]
      rw [demux_all_null (n + 1) (by omega)]
      dsimp only
      rw [npUnique_replicate n]
      simp only [dispatchLoop, eq_self_iff_true, if_true]
  · intro name hname
    unfold validDexes
    rw [List.length_replicate]
    rw [List.filter_eq_nil_iff]
    intro i hi
    have hlt : i < N := List.mem_range.mp hi
    rw [repGetD N i "None" "" hlt]
    simp [Ne.symm hname]

/-- C9 witness: the all-null theorem applied to an empty registry, a
two-object batch and a vector of two times. -/
theorem applyVariability_all_null_witness :
    applyVariabilityDeltaMag [] (List.replicate 2 .null) (.vector [5, 6])
        = .ok (zerosFor (.vector [5, 6]) 2)
      ∧ ∀ name, name ≠ "None" → validDexes name (List.replicate 2 "None") = [] :=
  applyVariability_all_null [] 2 (.vector [5, 6])
    (fun p hp => absurd hp (List.not_mem_nil p))

end VariabilityMixin
